import Mathlib

/-!
Verification development for the rule-based predictive-model evaluator in
`src/tlo/lm.py`: a `Predictor` holds an ordered list of (condition, coefficient)
rules compiled to expression strings that are evaluated against a table by
`pandas.DataFrame.eval`, and a `LinearModel` combines predictor columns with an
intercept under an additive, logistic or multiplicative composition rule.

The embedding models table cell values (`Val`), the fragment of the expression
language of `DataFrame.eval` that the generated condition strings live in (a
tokenizer and a shift-reduce evaluator), and the `Predictor` / `LinearModel`
classes with their construction-time assertions and their `predict` methods.
`DataFrame.eval` uses the default pandas parser, whose preparser rewrites the
bitwise `&` and `|` into the boolean `and` and `or`, so those operators bind
below the comparison operators, with `or` below `and`, while the unary `~`
binds tightest; the evaluator implements exactly that precedence.  Attribute
calls such as `age.sum()` or `age.mean()` are resolved by `DataFrame.eval`
against the whole column, so evaluation carries the full row list of the table
alongside the current row.  Machine floats are modelled as rationals; Python
exceptions are modelled by the `LmError` sum carried in `Except`.
-/

/-- A cell value: string, integer or boolean as stored in the population
table, or a rational produced by an aggregate such as `mean`. -/
inductive Val
  | VS (s : String)
  | VI (n : Int)
  | VB (b : Bool)
  | VQ (q : ℚ)
deriving DecidableEq, Repr

/-- Comparison operators of the condition mini-language. -/
inductive CmpOp
  | ceq
  | cne
  | clt
  | cle
  | cgt
  | cge
deriving DecidableEq, Repr

/-- Tokens of the expression fragment understood by `df.eval` that the model
generates: parentheses, `&`, `|`, `~`, comparisons, identifiers (column
names), literals, `@`-prefixed local variables (only `@touched` is ever
defined), and attribute calls `col.fn()` aggregating over a whole column. -/
inductive Token
  | lparen
  | rparen
  | amp
  | pipe
  | tilde
  | cmp (op : CmpOp)
  | ident (s : String)
  | lit (v : Val)
  | localv (s : String)
  | agg (col fn : String)
deriving DecidableEq, Repr

/-- Characters allowed inside identifiers. -/
def isIdentChar (c : Char) : Bool := c.isAlpha || c.isDigit || c = '_'

/-- Digit string to integer. -/
def digitsToInt (ds : List Char) : Int :=
  Int.ofNat (ds.foldl (fun a c => a * 10 + (c.toNat - 48)) 0)

/-- Fuel-driven tokenizer for the expression fragment; the fuel only serves
termination and `tokenize` supplies enough of it for any input. -/
def tokenizeF : Nat → List Char → Option (List Token)
  | 0, _ => none
  | _ + 1, [] => some []
  | fuel + 1, c :: rest =>
    if c = ' ' then tokenizeF fuel rest
    else if c = '(' then (tokenizeF fuel rest).map (Token.lparen :: ·)
    else if c = ')' then (tokenizeF fuel rest).map (Token.rparen :: ·)
    else if c = '&' then (tokenizeF fuel rest).map (Token.amp :: ·)
    else if c = '|' then (tokenizeF fuel rest).map (Token.pipe :: ·)
    else if c = '~' then (tokenizeF fuel rest).map (Token.tilde :: ·)
    else if c = '=' then
      match rest with
      | '=' :: rest2 => (tokenizeF fuel rest2).map (Token.cmp CmpOp.ceq :: ·)
      | _ => none
    else if c = '!' then
      match rest with
      | '=' :: rest2 => (tokenizeF fuel rest2).map (Token.cmp CmpOp.cne :: ·)
      | _ => none
    else if c = '<' then
      match rest with
      | '=' :: rest2 => (tokenizeF fuel rest2).map (Token.cmp CmpOp.cle :: ·)
      | _ => (tokenizeF fuel rest).map (Token.cmp CmpOp.clt :: ·)
    else if c = '>' then
      match rest with
      | '=' :: rest2 => (tokenizeF fuel rest2).map (Token.cmp CmpOp.cge :: ·)
      | _ => (tokenizeF fuel rest).map (Token.cmp CmpOp.cgt :: ·)
    else if c = '"' then
      match rest.dropWhile (fun x => x ≠ '"') with
      | '"' :: rest2 =>
        (tokenizeF fuel rest2).map
          (Token.lit (Val.VS (String.mk (rest.takeWhile (fun x => x ≠ '"')))) :: ·)
      | _ => none
    else if c = '@' then
      let name := rest.takeWhile isIdentChar
      if name.isEmpty then none
      else (tokenizeF fuel (rest.dropWhile isIdentChar)).map (Token.localv (String.mk name) :: ·)
    else if c.isDigit then
      let ds := (c :: rest).takeWhile Char.isDigit
      (tokenizeF fuel ((c :: rest).dropWhile Char.isDigit)).map
        (Token.lit (Val.VI (digitsToInt ds)) :: ·)
    else if c.isAlpha || c = '_' then
      let name := String.mk ((c :: rest).takeWhile isIdentChar)
      let rest2 := (c :: rest).dropWhile isIdentChar
      if name = "True" then (tokenizeF fuel rest2).map (Token.lit (Val.VB true) :: ·)
      else if name = "False" then (tokenizeF fuel rest2).map (Token.lit (Val.VB false) :: ·)
      else
        match rest2 with
        | '.' :: r3 =>
          let fn := r3.takeWhile isIdentChar
          match r3.dropWhile isIdentChar with
          | '(' :: ')' :: r4 =>
            if fn.isEmpty then (tokenizeF fuel rest2).map (Token.ident name :: ·)
            else (tokenizeF fuel r4).map (Token.agg name (String.mk fn) :: ·)
          | _ => (tokenizeF fuel rest2).map (Token.ident name :: ·)
        | _ => (tokenizeF fuel rest2).map (Token.ident name :: ·)
    else none

/-- Tokenize an expression string; `none` models a lexical error raised by
`df.eval`. -/
def tokenize (cs : List Char) : Option (List Token) :=
  tokenizeF (cs.length + 1) cs

/-- Logical negation on values; only booleans are negatable here. -/
def notV : Val → Option Val
  | Val.VB b => some (Val.VB (!b))
  | _ => none

/-- The `&` operator (rewritten to `and` by the pandas parser); defined on
booleans as in the generated masks. -/
def andV : Val → Val → Option Val
  | Val.VB a, Val.VB b => some (Val.VB (a && b))
  | _, _ => none

/-- The `|` operator (rewritten to `or` by the pandas parser). -/
def orV : Val → Val → Option Val
  | Val.VB a, Val.VB b => some (Val.VB (a || b))
  | _, _ => none

/-- Numeric view of a value: Python treats booleans as the integers 0 and 1;
integers and rationals compare on the rational line. -/
def numView : Val → Option ℚ
  | Val.VI n => some (n : ℚ)
  | Val.VB b => some (if b then 1 else 0)
  | Val.VQ q => some q
  | _ => none

/-- Python equality on cell values: strings compare equal only to equal
strings, numbers and booleans compare through their numeric view. -/
def eqV : Val → Val → Bool
  | Val.VS a, Val.VS b => a = b
  | Val.VS _, _ => false
  | _, Val.VS _ => false
  | x, y =>
    match numView x, numView y with
    | some a, some b => a = b
    | _, _ => false

/-- Python strict order on cell values; ordering a string against a number is
a type error. -/
def ltV : Val → Val → Option Bool
  | Val.VS a, Val.VS b => some (decide (a < b))
  | x, y =>
    match numView x, numView y with
    | some a, some b => some (decide (a < b))
    | _, _ => none

/-- Evaluate a comparison operator. -/
def cmpV (op : CmpOp) (a b : Val) : Option Val :=
  match op with
  | CmpOp.ceq => some (Val.VB (eqV a b))
  | CmpOp.cne => some (Val.VB (!eqV a b))
  | CmpOp.clt => (ltV a b).map Val.VB
  | CmpOp.cle => (ltV b a).map (fun r => Val.VB (!r))
  | CmpOp.cgt => (ltV b a).map Val.VB
  | CmpOp.cge => (ltV a b).map (fun r => Val.VB (!r))

/-- Items of the shift-reduce evaluation stack: an open parenthesis, a pending
`~`, a pending comparison left operand, a pending `&` left operand, a pending
`|` left operand, or a completed value.  Inside one nesting level the stack
holds, from the top: a value, then at most one pending comparison, one
pending `&`, and one pending `|`, mirroring the precedence `~` above
comparisons above `and` above `or` of the pandas parser. -/
inductive SItem
  | paren
  | pnot
  | pcmp (v : Val) (op : CmpOp)
  | pand (v : Val)
  | por (v : Val)
  | pval (v : Val)
deriving DecidableEq, Repr

/-- Push a completed value, reducing any pending `~` applications first
(`~` binds tightest); a value directly after another value is a parse error. -/
def pushVal : List SItem → Val → Option (List SItem)
  | SItem.pnot :: rest, v => (notV v).bind (pushVal rest)
  | SItem.pval _ :: _, _ => none
  | st, v => some (SItem.pval v :: st)

/-- One row of the table: an association of column names to values. -/
abbrev Row := List (String × Val)

/-- Look a column's value up in a row. -/
def rowGet (ρ : Row) (s : String) : Option Val :=
  (ρ.find? (fun kv => kv.1 = s)).map (fun kv => kv.2)

/-- Pop the completed value from the top of the stack. -/
def popVal : List SItem → Option (Val × List SItem)
  | SItem.pval v :: rest => some (v, rest)
  | _ => none

/-- Reduce a pending comparison below the current value, if any. -/
def reduceCmp : Val × List SItem → Option (Val × List SItem)
  | (v, SItem.pcmp w op :: rest) => (cmpV op w v).map (fun x => (x, rest))
  | (v, rest) => some (v, rest)

/-- Reduce a pending `&` below the current value, if any. -/
def reduceAnd : Val × List SItem → Option (Val × List SItem)
  | (v, SItem.pand u :: rest) => (andV u v).map (fun x => (x, rest))
  | (v, rest) => some (v, rest)

/-- Reduce a pending `|` below the current value, if any. -/
def reduceOr : Val × List SItem → Option (Val × List SItem)
  | (v, SItem.por u :: rest) => (orV u v).map (fun x => (x, rest))
  | (v, rest) => some (v, rest)

/-- Resolve an aggregate attribute call `col.fn()` over the whole column, as
`DataFrame.eval` does: `sum` adds the integer view of the column's entries,
`mean` divides that sum by the row count; other attributes are not modelled
and evaluate to an error. -/
def aggVal (rows : List Row) (col fn : String) : Option Val :=
  match rows.mapM (fun ρ =>
      match rowGet ρ col with
      | some (Val.VI n) => some n
      | some (Val.VB b) => some (if b then (1 : Int) else 0)
      | _ => none) with
  | none => none
  | some ns =>
    if fn = "sum" then some (Val.VI (ns.foldl (fun a b => a + b) 0))
    else if fn = "mean" then
      if ns.length = 0 then none
      else some (Val.VQ (((ns.foldl (fun a b => a + b) 0 : Int) : ℚ) / (ns.length : ℚ)))
    else none

/-- One step of the shift-reduce evaluator.  Reductions follow the pandas
parser precedence (`&` and `|` are rewritten to `and` and `or`): a `~`
reduces as soon as its operand arrives, an arriving `&` reduces any pending
comparison, an arriving `|` additionally reduces any pending `&`, and a
closing parenthesis or the end of input reduces everything down to the
enclosing level.  `rows` is the whole table, consulted only by aggregate
attribute calls; `ρ` resolves column names for the current row and `t` is the
current row's entry of the `touched` local variable. -/
def step (rows : List Row) (ρ : String → Option Val) (t : Bool)
    (st : List SItem) (tok : Token) : Option (List SItem) :=
  match tok with
  | Token.lparen =>
    match st with
    | SItem.pval _ :: _ => none
    | _ => some (SItem.paren :: st)
  | Token.tilde =>
    match st with
    | SItem.pval _ :: _ => none
    | _ => some (SItem.pnot :: st)
  | Token.cmp op =>
    match st with
    | SItem.pval _ :: SItem.pcmp _ _ :: _ => none
    | SItem.pval v :: rest => some (SItem.pcmp v op :: rest)
    | _ => none
  | Token.amp =>
    (popVal st).bind (fun p => (reduceCmp p).bind (fun p2 => (reduceAnd p2).map
      (fun p3 => SItem.pand p3.1 :: p3.2)))
  | Token.pipe =>
    (popVal st).bind (fun p => (reduceCmp p).bind (fun p2 => (reduceAnd p2).bind
      (fun p3 => (reduceOr p3).map (fun p4 => SItem.por p4.1 :: p4.2))))
  | Token.rparen =>
    (popVal st).bind (fun p => (reduceCmp p).bind (fun p2 => (reduceAnd p2).bind
      (fun p3 => (reduceOr p3).bind (fun p4 =>
        match p4.2 with
        | SItem.paren :: rest => pushVal rest p4.1
        | _ => none))))
  | Token.ident s => (ρ s).bind (pushVal st)
  | Token.lit v => pushVal st v
  | Token.localv s => if s = "touched" then pushVal st (Val.VB t) else none
  | Token.agg col fn => (aggVal rows col fn).bind (pushVal st)

/-- Final reduction at end of input: reduce any pending comparison, `&` and
`|` below the completed value; the stack must then be empty. -/
def finishStack (st : List SItem) : Option Val :=
  (popVal st).bind (fun p => (reduceCmp p).bind (fun p2 => (reduceAnd p2).bind
    (fun p3 => (reduceOr p3).bind (fun p4 =>
      match p4.2 with
      | [] => some p4.1
      | _ => none))))

/-- Evaluate a token list to a value. -/
def evalToks (rows : List Row) (ρ : String → Option Val) (t : Bool)
    (ts : List Token) : Option Val :=
  (ts.foldlM (step rows ρ t) []).bind finishStack

/-- The model of `df.eval(s)` at one row: tokenize, evaluate with the whole
table's rows available to aggregate calls, and require a boolean result (the
masks the model builds are boolean).  `none` models an exception raised by
`df.eval`. -/
def evalCond (s : String) (rows : List Row) (ρ : Row) (t : Bool) : Option Bool :=
  match (tokenize s.data).bind (evalToks rows (rowGet ρ) t) with
  | some (Val.VB b) => some b
  | _ => none

/-- Exceptions of the embedded program. -/
inductive LmError
  | indexError
  | otherwiseOnUnnamed
  | secondUnconditioned
  | interceptNotSpecified
  | predictorNotInColumns
  | typeError
  | evalError
deriving DecidableEq, Repr

/-- A condition argument as passed to `Predictor.when`: a string, a boolean or
a (non-string) number, matching the `isinstance` dispatch of `_coeff`. -/
inductive CondArg
  | str (s : String)
  | bool (b : Bool)
  | num (n : Int)
deriving DecidableEq, Repr

/-- A Predictor variable for the regression model, as in `Predictor.__init__`:
an optional property name, the ordered rule list, and the flag recording that
an unconditioned value was supplied.  A stored condition is `none` for the
unconditioned rule path and otherwise the object `_coeff` appended. -/
structure Predictor where
  property_name : Option String
  conditions : List (Option CondArg × ℚ)
  else_condition_supplied : Bool
deriving DecidableEq, Repr

/-- `Predictor.__init__`. -/
def Predictor.init (property_name : Option String) : Predictor :=
  { property_name := property_name, conditions := [], else_condition_supplied := false }

/-- `Predictor._coeff`: parse the condition argument into the stored condition
text.  With no property name the condition is stored literally; with one, a
string beginning with an operator character is spliced verbatim, a numeric
string or a boolean becomes an equality, any other string becomes a quoted
equality, a non-string number becomes the equality text of the source's
numeric branch (which omits the closing parenthesis), and a `none` condition
records the unconditioned value after asserting it is the only one. -/
def Predictor.addCoeff (p : Predictor) (condition : Option CondArg) (coefficient : ℚ) :
    Except LmError Predictor :=
  match p.property_name with
  | none => Except.ok { p with conditions := p.conditions ++ [(condition, coefficient)] }
  | some name =>
    match condition with
    | some (CondArg.str s) =>
      match s.data with
      | [] => Except.error LmError.indexError
      | c :: _ =>
        if c = '=' ∨ c = '<' ∨ c = '>' ∨ c = '~' ∨ c = '(' ∨ c = '.' then
          Except.ok { p with conditions :=
            p.conditions ++ [(some (CondArg.str ("(" ++ name ++ s ++ ")")), coefficient)] }
        else if s.data.all Char.isDigit then
          Except.ok { p with conditions :=
            p.conditions ++ [(some (CondArg.str ("(" ++ name ++ " == " ++ s ++ ")")), coefficient)] }
        else
          Except.ok { p with conditions :=
            p.conditions ++
              [(some (CondArg.str ("(" ++ name ++ " == \"" ++ s ++ "\")")), coefficient)] }
    | some (CondArg.bool b) =>
      Except.ok { p with conditions :=
        p.conditions ++
          [(some (CondArg.str ("(" ++ name ++ " == " ++ (if b then "True" else "False") ++ ")")),
            coefficient)] }
    | some (CondArg.num n) =>
      Except.ok { p with conditions :=
        p.conditions ++ [(some (CondArg.str ("(" ++ name ++ " == " ++ toString n)), coefficient)] }
    | none =>
      if p.else_condition_supplied then Except.error LmError.secondUnconditioned
      else Except.ok { p with
        else_condition_supplied := true
        conditions := p.conditions ++ [(some (CondArg.str ""), coefficient)] }

/-- `Predictor.when`. -/
def Predictor.when (p : Predictor) (condition : CondArg) (value : ℚ) :
    Except LmError Predictor :=
  p.addCoeff (some condition) value

/-- `Predictor.otherwise`: asserts the Predictor is named, then adds the
unconditioned value through `_coeff`. -/
def Predictor.otherwise (p : Predictor) (value : ℚ) : Except LmError Predictor :=
  match p.property_name with
  | none => Except.error LmError.otherwiseOnUnnamed
  | some _ => p.addCoeff none value

/-- The text evaluated for one rule inside `Predictor.predict`: a truthy
stored condition gets `' & (~@touched)'` appended, a falsy one (empty string,
`False`, `0` or `None`) is replaced by `'~@touched'`; appending to a truthy
non-string is a `TypeError`, as string concatenation in the source would be. -/
def condText : Option CondArg → Except LmError String
  | some (CondArg.str s) =>
    Except.ok (if s = "" then "~@touched" else s ++ " & (~@touched)")
  | some (CondArg.bool b) =>
    if b then Except.error LmError.typeError else Except.ok "~@touched"
  | some (CondArg.num n) =>
    if n = 0 then Except.ok "~@touched" else Except.error LmError.typeError
  | none => Except.ok "~@touched"

/-- Evaluate a condition over a list of rows, each paired with its entry of
the `touched` series; `ctxRows` is the whole table consulted by aggregate
calls, and any row on which `df.eval` raises fails the whole evaluation. -/
def evalMasks (cs : String) (ctxRows : List Row) :
    List (Row × Bool) → Except LmError (List Bool)
  | [] => Except.ok []
  | rt :: rest =>
    match evalCond cs ctxRows rt.1 rt.2 with
    | some b => (evalMasks cs ctxRows rest).map (b :: ·)
    | none => Except.error LmError.evalError

/-- The boolean mask `df.eval(condition)` over the rows. -/
def maskOf (cs : String) (rows : List Row) (touched : List Bool) :
    Except LmError (List Bool) :=
  evalMasks cs rows (rows.zip touched)

/-- The rule loop of `Predictor.predict`: for each rule, build the guarded
condition text, evaluate the mask, assign the coefficient on the mask, and
accumulate the mask into `touched`. -/
def predictLoop (rows : List Row) :
    List (Option CondArg × ℚ) → List (Option ℚ) → List Bool →
      Except LmError (List (Option ℚ))
  | [], output, _ => Except.ok output
  | (condition, value) :: rest, output, touched =>
    match condText condition with
    | Except.error e => Except.error e
    | Except.ok cs =>
      match maskOf cs rows touched with
      | Except.error e => Except.error e
      | Except.ok mask =>
        predictLoop rows rest
          (List.zipWith (fun o m => if m then some value else o) output mask)
          (List.zipWith (fun a b => a || b) touched mask)

/-- The table handed to `predict`: named columns over a list of rows. -/
structure DataFrame where
  columns : List String
  rows : List Row
deriving DecidableEq, Repr

/-- `Predictor.predict`: output starts as all-missing, `touched` as all-false,
then the rules run in order. -/
def Predictor.predict (p : Predictor) (df : DataFrame) :
    Except LmError (List (Option ℚ)) :=
  predictLoop df.rows p.conditions
    (List.replicate df.rows.length none) (List.replicate df.rows.length false)

/-- The composition type of a linear model. -/
inductive LinearModelType
  | ADDITIVE
  | LOGISTIC
  | MULTIPLICATIVE
deriving DecidableEq, Repr

/-- A linear model: a composition type, an intercept and the predictors. -/
structure LinearModel where
  lm_type : LinearModelType
  intercept : Option ℚ
  predictors : List Predictor
deriving DecidableEq, Repr

/-- `LinearModel.__init__`.  Its two assertions (`lm_type` is a member of the
enumeration, every positional argument is a `Predictor`) hold by typing in the
embedding, so construction always succeeds. -/
def LinearModel.init (lm_type : LinearModelType) (intercept : Option ℚ)
    (predictors : List Predictor) : Except LmError LinearModel :=
  Except.ok { lm_type := lm_type, intercept := intercept, predictors := predictors }

/-- Row-wise combination of the intercept with the predictor contributions of
one row, per composition type, skipping missing entries as `sum`/`prod` with
`skipna=True` do. -/
def combineRow (t : LinearModelType) (c : ℚ) (vs : List (Option ℚ)) : ℚ :=
  match t with
  | LinearModelType.ADDITIVE => vs.foldl (fun acc v => acc + v.getD 0) c
  | LinearModelType.LOGISTIC =>
    let odds := vs.foldl (fun acc v => acc * v.getD 1) c
    odds / (1 + odds)
  | LinearModelType.MULTIPLICATIVE => vs.foldl (fun acc v => acc * v.getD 1) c

/-- Combine the predictor columns row by row over `n` rows. -/
def combineAll (t : LinearModelType) (c : ℚ) (cols : List (List (Option ℚ))) :
    Nat → List ℚ
  | 0 => []
  | Nat.succ n =>
    combineRow t c (cols.map (fun col => col.headD none)) ::
      combineAll t c (cols.map List.tail) n

/-- Evaluate each predictor into its column of `res_by_predictor`, in order;
a predictor whose evaluation raises fails the whole call. -/
def predictorColumns (df : DataFrame) : List Predictor → Except LmError (List (List (Option ℚ)))
  | [] => Except.ok []
  | p :: rest =>
    match p.predict df with
    | Except.error e => Except.error e
    | Except.ok col => (predictorColumns df rest).map (col :: ·)

/-- `LinearModel.predict`: assert the intercept is specified, assert every
named predictor's property is among the table's columns, evaluate each
predictor, and combine. -/
def LinearModel.predict (m : LinearModel) (df : DataFrame) : Except LmError (List ℚ) :=
  match m.intercept with
  | none => Except.error LmError.interceptNotSpecified
  | some c =>
    if m.predictors.all (fun p =>
        match p.property_name with
        | some a => df.columns.contains a
        | none => true) then
      (predictorColumns df m.predictors).map
        (fun cols => combineAll m.lm_type c cols df.rows.length)
    else Except.error LmError.predictorNotInColumns

/-- Decidable equality of `Except` results, for evaluating the embedded
program on concrete inputs. -/
instance {ε α : Type} [DecidableEq ε] [DecidableEq α] : DecidableEq (Except ε α) :=
  fun a b =>
    match a, b with
    | Except.ok x, Except.ok y =>
      if h : x = y then isTrue (by rw [h]) else isFalse (fun hc => h (Except.ok.inj hc))
    | Except.error x, Except.error y =>
      if h : x = y then isTrue (by rw [h]) else isFalse (fun hc => h (Except.error.inj hc))
    | Except.ok _, Except.error _ => isFalse (fun hc => Except.noConfusion hc)
    | Except.error _, Except.ok _ => isFalse (fun hc => Except.noConfusion hc)

/-- Claim C2 (code bug): `when` with the non-string numeric literal `5` on
`Predictor('age')` stores the unbalanced condition text `(age == 5` — the
closing parenthesis the claim requires is missing — and a subsequent `predict`
on a table that has the `age` column fails on the malformed expression instead
of succeeding. -/
theorem c2_numeric_condition_unbalanced_eval :
    (Predictor.init (some "age")).when (CondArg.num 5) 2 =
      Except.ok
        { property_name := some "age"
          conditions := [(some (CondArg.str "(age == 5"), 2)]
          else_condition_supplied := false } ∧
    Predictor.predict
      { property_name := some "age"
        conditions := [(some (CondArg.str "(age == 5"), 2)]
        else_condition_supplied := false }
      { columns := ["age"], rows := [[("age", Val.VI 5)]] } =
      Except.error LmError.evalError := by
  exact ⟨by decide, by decide⟩

/-- Claim C1 (code bug): short-circuit priority fails for a Predictor whose
second rule's condition has a top-level `|`.  The pandas parser behind
`df.eval` rewrites `|` to `or`, which binds below `and`, so the guard the
code appends to `'(flag == False) | (flag == True)'` attaches only to the
last disjunct: the guarded string evaluates as
`(flag == False) or ((flag == True) and ~touched)`, which is true for an
already-matched row with `flag = False`.  On a one-row table whose row
satisfies both conditions, `predict` outputs `2`: the later rule reassigns
the row the first rule had matched, although the first rule's value is `1`. -/
theorem c1_short_circuit_bypassed_eval :
    ((Predictor.init none).when (CondArg.str "(flag == False)") 1).bind
      (fun p => p.when (CondArg.str "(flag == False) | (flag == True)") 2) =
      Except.ok
        { property_name := none
          conditions := [(some (CondArg.str "(flag == False)"), 1),
            (some (CondArg.str "(flag == False) | (flag == True)"), 2)]
          else_condition_supplied := false } ∧
    Predictor.predict
      { property_name := none
        conditions := [(some (CondArg.str "(flag == False)"), 1),
          (some (CondArg.str "(flag == False) | (flag == True)"), 2)]
        else_condition_supplied := false }
      { columns := ["flag"], rows := [[("flag", Val.VB false)]] } =
      Except.ok [some 2] ∧
    evalCond "(flag == False)" [[("flag", Val.VB false)]]
      [("flag", Val.VB false)] false = some true ∧
    evalCond "(flag == False) | (flag == True)" [[("flag", Val.VB false)]]
      [("flag", Val.VB false)] false = some true ∧
    some (2 : ℚ) ≠ some (1 : ℚ) := by
  exact ⟨by decide, by decide, by decide, by decide, by decide⟩

/-- Claim C10: calling `when` with the empty string on a Predictor that has an
attribute name fails with the unguarded index access on `condition[0]` — an
IndexError, not a configuration error, and no rule is added. -/
theorem c10_empty_condition_index_error (p : Predictor) (a : String) (v : ℚ)
    (h : p.property_name = some a) :
    p.when (CondArg.str "") v = Except.error LmError.indexError := by
  simp [Predictor.when, Predictor.addCoeff, h]

/-- Witness for C10 at `Predictor('sex')`. -/
theorem c10_empty_condition_index_error_witness :
    (Predictor.init (some "sex")).when (CondArg.str "") 1 =
      Except.error LmError.indexError :=
  c10_empty_condition_index_error (Predictor.init (some "sex")) "sex" 1 rfl

/-- Claim C9: `otherwise` on an unnamed Predictor fails with the assertion of
`Predictor.otherwise`; a second unconditioned value fails with the assertion
of `_coeff`; and a successful `otherwise` records the flag that makes any
further unconditioned value fail, so at most one unconditioned rule exists. -/
theorem c9_otherwise_invariants (p : Predictor) (v : ℚ) :
    (p.property_name = none →
      p.otherwise v = Except.error LmError.otherwiseOnUnnamed) ∧
    (∀ a, p.property_name = some a → p.else_condition_supplied = true →
      p.otherwise v = Except.error LmError.secondUnconditioned) ∧
    (∀ q, p.otherwise v = Except.ok q → q.else_condition_supplied = true) := by
  refine ⟨fun h => by simp [Predictor.otherwise, h],
    fun a ha hf => by simp [Predictor.otherwise, Predictor.addCoeff, ha, hf], ?_⟩
  intro q hq
  unfold Predictor.otherwise at hq
  cases hp : p.property_name with
  | none => rw [hp] at hq; exact absurd hq (by simp)
  | some a =>
    rw [hp] at hq
    unfold Predictor.addCoeff at hq
    rw [hp] at hq
    by_cases hf : p.else_condition_supplied
    · rw [if_pos hf] at hq
      exact absurd hq (by simp)
    · rw [if_neg hf] at hq
      cases hq
      rfl

/-- Witness for C9: both failure modes at concrete Predictors, and the flag
set by a successful `otherwise`. -/
theorem c9_otherwise_invariants_witness :
    (Predictor.init none).otherwise 1 = Except.error LmError.otherwiseOnUnnamed ∧
    Predictor.otherwise
      { property_name := some "sex"
        conditions := []
        else_condition_supplied := true } 1 =
      Except.error LmError.secondUnconditioned ∧
    Predictor.else_condition_supplied
      { property_name := some "sex"
        conditions := [(some (CondArg.str ""), 1)]
        else_condition_supplied := true } = true := by
  refine ⟨(c9_otherwise_invariants (Predictor.init none) 1).1 rfl,
    (c9_otherwise_invariants
      { property_name := some "sex"
        conditions := []
        else_condition_supplied := true } 1).2.1 "sex" rfl rfl,
    (c9_otherwise_invariants (Predictor.init (some "sex")) 1).2.2
      { property_name := some "sex"
        conditions := [(some (CondArg.str ""), 1)]
        else_condition_supplied := true } (by decide)⟩

/-- Claim C8 counterexample: constructing a `LinearModel` with an absent
intercept does not fail at construction time — `__init__` accepts it and
returns the model; no configuration error is raised until `predict`. -/
theorem c8_counterexample :
    LinearModel.init LinearModelType.ADDITIVE none [] =
      Except.ok
        { lm_type := LinearModelType.ADDITIVE
          intercept := none
          predictors := [] } := rfl

/-- Claim C8 (amended): the absent intercept is detected at `predict` time —
every call of `predict` on a model whose intercept is absent fails with the
`Interceipt is not specified` assertion before any output is produced. -/
theorem c8_intercept_checked_at_predict (m : LinearModel) (df : DataFrame)
    (h : m.intercept = none) :
    m.predict df = Except.error LmError.interceptNotSpecified := by
  simp [LinearModel.predict, h]

/-- Witness for the amended C8. -/
theorem c8_intercept_checked_at_predict_witness :
    LinearModel.predict
      { lm_type := LinearModelType.ADDITIVE
        intercept := none
        predictors := [] }
      { columns := [], rows := [] } = Except.error LmError.interceptNotSpecified :=
  c8_intercept_checked_at_predict
    { lm_type := LinearModelType.ADDITIVE
      intercept := none
      predictors := [] }
    { columns := [], rows := [] } rfl

/-- Claim C7: `predict` on a table lacking a column named by one of the
model's predictors fails with the validation assertion (given the model's
intercept is specified, which is asserted first), so no output column is
returned. -/
theorem c7_unknown_attribute_error (m : LinearModel) (df : DataFrame)
    (p : Predictor) (a : String) (c : ℚ) (hc : m.intercept = some c)
    (hp : p ∈ m.predictors) (ha : p.property_name = some a)
    (hcol : df.columns.contains a = false) :
    m.predict df = Except.error LmError.predictorNotInColumns := by
  have hall : (m.predictors.all fun q =>
      match q.property_name with
      | some a => df.columns.contains a
      | none => true) = false := by
    rw [List.all_eq_false]
    refine ⟨p, hp, ?_⟩
    rw [ha]
    simp only [hcol]
    exact Bool.false_ne_true
  simp only [LinearModel.predict, hc]
  rw [hall]
  simp

/-- Witness for C7: a model over `sex` applied to a table with only `age`. -/
theorem c7_unknown_attribute_error_witness :
    LinearModel.predict
      { lm_type := LinearModelType.ADDITIVE
        intercept := some 1
        predictors := [Predictor.init (some "sex")] }
      { columns := ["age"], rows := [] } =
      Except.error LmError.predictorNotInColumns :=
  c7_unknown_attribute_error
    { lm_type := LinearModelType.ADDITIVE
      intercept := some 1
      predictors := [Predictor.init (some "sex")] }
    { columns := ["age"], rows := [] }
    (Predictor.init (some "sex")) "sex" 1 rfl (List.mem_singleton.mpr rfl) rfl (by decide)

/-- Claim C4: a LOGISTIC model with no predictors outputs `c / (1 + c)` for
every row of any table — the combined odds of each row are the intercept
alone, transformed by the logistic map. -/
theorem c4_no_predictor_logistic (c : ℚ) (df : DataFrame) :
    (LinearModel.init LinearModelType.LOGISTIC (some c) []).bind
      (fun m => m.predict df) =
      Except.ok (List.replicate df.rows.length (c / (1 + c))) := by
  have h : ∀ n, combineAll LinearModelType.LOGISTIC c [] n =
      List.replicate n (c / (1 + c)) := by
    intro n
    induction n with
    | zero => rfl
    | succ n ih => simp [combineAll, combineRow, ih, List.replicate_succ]
  show Except.ok (combineAll LinearModelType.LOGISTIC c [] df.rows.length) =
    Except.ok (List.replicate df.rows.length (c / (1 + c)))
  rw [h]

/-- Claim C5: the implicit-equality normalization of the plain literal `'M'`
and the raw-expression form `'=="M"'` with a leading operator character store
condition texts that differ only in whitespace, so `Predictor('sex')` built
from either produces identical `predict` output on every table. -/
theorem c5_equality_shorthand_equiv (x : ℚ) (df : DataFrame) :
    ((Predictor.init (some "sex")).when (CondArg.str "M") x).bind
      (fun p => p.predict df) =
    ((Predictor.init (some "sex")).when (CondArg.str "==\"M\"") x).bind
      (fun p => p.predict df) := by
  have h1 : (Predictor.init (some "sex")).when (CondArg.str "M") x =
      Except.ok
        { property_name := some "sex"
          conditions := [(some (CondArg.str "(sex == \"M\")"), x)]
          else_condition_supplied := false } := rfl
  have h2 : (Predictor.init (some "sex")).when (CondArg.str "==\"M\"") x =
      Except.ok
        { property_name := some "sex"
          conditions := [(some (CondArg.str "(sex==\"M\")"), x)]
          else_condition_supplied := false } := rfl
  have he : ∀ rows ρ t, evalCond "(sex == \"M\") & (~@touched)" rows ρ t =
      evalCond "(sex==\"M\") & (~@touched)" rows ρ t := by
    intro rows ρ t
    unfold evalCond
    rw [show tokenize ("(sex == \"M\") & (~@touched)").data =
      tokenize ("(sex==\"M\") & (~@touched)").data from by decide]
  have hmask : ∀ rows touched, maskOf "(sex == \"M\") & (~@touched)" rows touched =
      maskOf "(sex==\"M\") & (~@touched)" rows touched := by
    intro rows touched
    unfold maskOf
    induction List.zip rows touched with
    | nil => rfl
    | cons rt rest ih => simp only [evalMasks, he, ih]
  rw [h1, h2]
  show Predictor.predict
      { property_name := some "sex"
        conditions := [(some (CondArg.str "(sex == \"M\")"), x)]
        else_condition_supplied := false } df =
    Predictor.predict
      { property_name := some "sex"
        conditions := [(some (CondArg.str "(sex==\"M\")"), x)]
        else_condition_supplied := false } df
  unfold Predictor.predict
  simp only [predictLoop,
    show condText (some (CondArg.str "(sex == \"M\")")) =
      Except.ok "(sex == \"M\") & (~@touched)" from by decide,
    show condText (some (CondArg.str "(sex==\"M\")")) =
      Except.ok "(sex==\"M\") & (~@touched)" from by decide,
    hmask]

/-- Mapping two pointwise-equal functions over a list gives the same list. -/
theorem map_congr_on {α β : Type} (f g : α → β) (l : List α) (h : ∀ a, f a = g a) :
    l.map f = l.map g := by
  have hfg : f = g := funext h
  rw [hfg]

/-- Every column produced by `predictorColumns` is the `predict` output of one
of the predictors. -/
theorem predictorColumns_mem (df : DataFrame) :
    ∀ (l : List Predictor) (cols : List (List (Option ℚ))),
      predictorColumns df l = Except.ok cols →
      ∀ col ∈ cols, ∃ p ∈ l, p.predict df = Except.ok col := by
  intro l
  induction l with
  | nil =>
    intro cols h col hc
    simp only [predictorColumns] at h
    cases h
    simp at hc
  | cons p rest ih =>
    intro cols h col hc
    simp only [predictorColumns] at h
    cases hp : p.predict df with
    | error e => rw [hp] at h; exact absurd h (by simp)
    | ok col0 =>
      rw [hp] at h
      cases hrec : predictorColumns df rest with
      | error e => rw [hrec] at h; exact absurd h (by simp [Except.map])
      | ok cs =>
        rw [hrec] at h
        simp only [Except.map] at h
        cases h
        rcases List.mem_cons.mp hc with hcol | hcol
        · exact ⟨p, List.mem_cons_self p rest, hcol ▸ hp⟩
        · obtain ⟨q, hq, hqq⟩ := ih cs hrec col hcol
          exact ⟨q, List.mem_cons_of_mem p hq, hqq⟩

/-- The `i`-th entry of the combined output is the row-wise combination of the
`i`-th entries of the predictor columns. -/
theorem combineAll_get (t : LinearModelType) (c : ℚ) :
    ∀ (n i : Nat) (cols : List (List (Option ℚ))), i < n →
      (combineAll t c cols n)[i]? =
        some (combineRow t c (cols.map (fun col => col[i]?.getD none))) := by
  intro n
  induction n with
  | zero => intro i cols h; exact absurd h (Nat.not_lt_zero i)
  | succ n ih =>
    intro i cols h
    cases i with
    | zero =>
      simp only [combineAll, List.getElem?_cons_zero, Option.some.injEq]
      refine congrArg (combineRow t c) (map_congr_on _ _ cols (fun col => ?_))
      cases col <;> simp
    | succ i =>
      simp only [combineAll, List.getElem?_cons_succ]
      rw [ih i (cols.map List.tail) (Nat.lt_of_succ_lt_succ h)]
      rw [List.map_map]
      refine congrArg (fun vs => some (combineRow t c vs))
        (map_congr_on _ _ cols (fun col => ?_))
      cases col <;> simp [Function.comp]

/-- Folding the skipna addition over all-missing entries leaves the
accumulator unchanged. -/
theorem foldl_skipna_add :
    ∀ (l : List (Option ℚ)) (c : ℚ), (∀ v ∈ l, v = none) →
      l.foldl (fun acc v => acc + v.getD 0) c = c := by
  intro l
  induction l with
  | nil => intro c _; rfl
  | cons v rest ih =>
    intro c h
    have hv : v = none := h v (List.mem_cons_self v rest)
    subst hv
    simp only [List.foldl_cons, Option.getD_none, add_zero]
    exact ih c (fun w hw => h w (List.mem_cons_of_mem none hw))

/-- Folding the skipna multiplication over all-missing entries leaves the
accumulator unchanged. -/
theorem foldl_skipna_mul :
    ∀ (l : List (Option ℚ)) (c : ℚ), (∀ v ∈ l, v = none) →
      l.foldl (fun acc v => acc * v.getD 1) c = c := by
  intro l
  induction l with
  | nil => intro c _; rfl
  | cons v rest ih =>
    intro c h
    have hv : v = none := h v (List.mem_cons_self v rest)
    subst hv
    simp only [List.foldl_cons, Option.getD_none, mul_one]
    exact ih c (fun w hw => h w (List.mem_cons_of_mem none hw))

/-- Claim C3: a row for which every predictor yields no value receives exactly
the intercept under ADDITIVE and MULTIPLICATIVE composition (missing entries
contribute 0 to the sum and 1 to the product) and the logistic transform of
the intercept odds under LOGISTIC composition. -/
theorem c3_missing_as_identity (m : LinearModel) (df : DataFrame) (out : List ℚ)
    (c : ℚ) (i : Nat) (hok : m.predict df = Except.ok out) (hc : m.intercept = some c)
    (hmiss : ∀ p ∈ m.predictors, ∀ col, p.predict df = Except.ok col → col[i]? = some none)
    (hi : i < df.rows.length) :
    out[i]? = some (match m.lm_type with
      | LinearModelType.ADDITIVE => c
      | LinearModelType.LOGISTIC => c / (1 + c)
      | LinearModelType.MULTIPLICATIVE => c) := by
  obtain ⟨ty, ic, preds⟩ := m
  simp only at hc hmiss
  subst hc
  simp only [LinearModel.predict] at hok
  by_cases hall : (preds.all fun p => match p.property_name with
      | some a => df.columns.contains a
      | none => true) = true
  case neg => rw [if_neg hall] at hok; exact absurd hok (by simp)
  case pos =>
  rw [if_pos hall] at hok
  cases hcols : predictorColumns df preds with
  | error e => rw [hcols] at hok; exact absurd hok (by simp [Except.map])
  | ok cols =>
    rw [hcols] at hok
    simp only [Except.map] at hok
    cases hok
    rw [combineAll_get ty c df.rows.length i cols hi]
    have hnone : ∀ v ∈ cols.map (fun col => col[i]?.getD none), v = none := by
      intro v hv
      obtain ⟨col, hcol, rfl⟩ := List.mem_map.mp hv
      obtain ⟨p, hpmem, hpp⟩ := predictorColumns_mem df preds cols hcols col hcol
      rw [hmiss p hpmem col hpp]
      rfl
    cases ty with
    | ADDITIVE =>
      simp only [combineRow]
      rw [foldl_skipna_add _ c hnone]
    | LOGISTIC =>
      simp only [combineRow]
      rw [foldl_skipna_mul _ c hnone]
    | MULTIPLICATIVE =>
      simp only [combineRow]
      rw [foldl_skipna_mul _ c hnone]

/-- Witness for C3: an additive model with intercept 2 whose single predictor
matches no rule on the one-row table, so the output is exactly the intercept. -/
theorem c3_missing_as_identity_witness :
    ([(2 : ℚ)] : List ℚ)[0]? = some 2 := by
  have hrow : combineRow LinearModelType.ADDITIVE 2 [none] = (2 : ℚ) := by
    simp [combineRow]
  have hcomb : combineAll LinearModelType.ADDITIVE 2 [[none]] 1 = [(2 : ℚ)] := by
    rw [show combineAll LinearModelType.ADDITIVE 2 [[none]] 1 =
      [combineRow LinearModelType.ADDITIVE 2 [none]] from rfl, hrow]
  refine c3_missing_as_identity
    { lm_type := LinearModelType.ADDITIVE
      intercept := some 2
      predictors := [
        { property_name := some "sex"
          conditions := [(some (CondArg.str "(sex == \"Z\")"), 5)]
          else_condition_supplied := false }] }
    { columns := ["sex"], rows := [[("sex", Val.VS "M")]] }
    [2] 2 0 ?_ rfl ?_ (by decide)
  · rw [← hcomb]
    rfl
  · intro p hp col hcol
    rw [List.mem_singleton] at hp
    subst hp
    rw [show Predictor.predict
        { property_name := some "sex"
          conditions := [(some (CondArg.str "(sex == \"Z\")"), 5)]
          else_condition_supplied := false }
        { columns := ["sex"], rows := [[("sex", Val.VS "M")]] } =
        Except.ok [none] from by decide] at hcol
    cases hcol
    rfl

